import Mathlib

/-
Verification of the ugit_diy repository-discovery and initialization core
(src/ugit_diy/paths.py, src/ugit_diy/repo.py) and its CLI entry point
(src/ugit_diy/cli.py), over a shallow embedding of the relevant Python code.

Filesystem model: an absolute path is its list of components listed from the
deepest component up to the root, so the directory /a/b is ["b", "a"] and []
is the filesystem root.  With this representation the parent of a nonempty
path is its tail, and the ancestors of a path are exactly its list suffixes.
A filesystem is a finite association list from paths to nodes (directory, or
file with text content); a later entry is shadowed by an earlier one, and
`setNode` prepends, so lookup sees the most recent write.

Path resolution: Python's `(start_dir or Path.cwd()).resolve()` is modelled
by taking the already-resolved absolute directory as the input of
`find_repo_root` and `init_repo`; symlink and cwd handling is outside the
model, and every path below is an absolute resolved path.
-/

namespace Ugit

/-- An absolute filesystem path, components listed deepest-first. -/
abbrev FsPath := List String

/-- Render a path in the usual /a/b/c form (the root is "/"). -/
def pathToString (p : FsPath) : String :=
  "/" ++ String.intercalate "/" p.reverse

/-- A filesystem node: a directory, or a regular file with text content. -/
inductive Node where
  | dir : Node
  | file : String → Node
deriving DecidableEq

/-- A filesystem: a finite association list from absolute paths to nodes. -/
structure FS where
  entries : List (FsPath × Node)
deriving DecidableEq

/-- Look up the node at a path (first matching entry wins). -/
def FS.lookupNode (fs : FS) (p : FsPath) : Option Node :=
  (fs.entries.find? (fun e => e.1 == p)).map (fun e => e.2)

/-- Python `Path.exists()`: the path is present, as a file or a directory. -/
def FS.pathExists (fs : FS) (p : FsPath) : Bool :=
  (fs.lookupNode p).isSome

/-- Python `Path.is_file()`: the path is present and is a regular file. -/
def FS.isFile (fs : FS) (p : FsPath) : Bool :=
  match fs.lookupNode p with
  | some (.file _) => true
  | _ => false

/-- Python `Path.is_dir()`: the path is present and is a directory. -/
def FS.isDir (fs : FS) (p : FsPath) : Bool :=
  match fs.lookupNode p with
  | some .dir => true
  | _ => false

/-- Write a node at a path, shadowing any previous entry. -/
def FS.setNode (fs : FS) (p : FsPath) (n : Node) : FS :=
  ⟨(p, n) :: fs.entries⟩

/-- Create a directory at `p` unless something already exists there
(the parents=True part of `Path.mkdir(parents=True)` never overwrites). -/
def FS.mkdirIfMissing (fs : FS) (p : FsPath) : FS :=
  if fs.pathExists p then fs else fs.setNode p .dir

/-- Create every missing ancestor directory of the parent chain of a mkdir
target, from the shallowest ancestor down; the filesystem root always
exists and is never created. -/
def FS.mkdirParents (fs : FS) : FsPath → FS
  | [] => fs
  | p@(_ :: rest) => (fs.mkdirParents rest).mkdirIfMissing p

/-- Python `Path.mkdir(parents=True)` (exist_ok defaults to False): create
the missing parents, then create the leaf; if the leaf already exists the
call raises FileExistsError, reported here as an error string next to the
filesystem state reached so far. -/
def FS.mkdirP (fs : FS) (p : FsPath) : FS × Option String :=
  match p with
  | [] => (fs, some "FileExistsError")
  | _ :: rest =>
    let fs1 := fs.mkdirParents rest
    if fs1.pathExists p then (fs1, some "FileExistsError")
    else (fs1.setNode p .dir, none)

/-- Python `Path.write_text`: create or overwrite a regular file. -/
def FS.writeText (fs : FS) (p : FsPath) (content : String) : FS :=
  fs.setNode p (.file content)

/-- The proper ancestors of a path (its proper list suffixes), deepest
first, ending with the filesystem root `[]`. -/
def properTails : FsPath → List FsPath
  | [] => []
  | _ :: rest => rest :: properTails rest

/-- Real-filesystem well-formedness: every proper ancestor of an existing
path exists and is a directory. -/
def FS.wfDirs (fs : FS) : Bool :=
  fs.entries.all fun e => (properTails e.1).all fun q => fs.isDir q

/-- The marker filename, the literal "pyproject.toml" of paths.py line 59. -/
def markerName : String := "pyproject.toml"

/-- The candidate sequence of paths.py line 58, `[start_abs_path,
*start_abs_path.parents]`: the start directory followed by each ancestor up
to the filesystem root. -/
def ancestorChain : FsPath → List FsPath
  | [] => [[]]
  | p@(_ :: rest) => p :: ancestorChain rest

/-- The marker test of paths.py line 59: `(candidate / "pyproject.toml").is_file()`. -/
def hasMarkerFile (fs : FS) (c : FsPath) : Bool :=
  fs.isFile (markerName :: c)

/-- Outcome of `find_repo_root`: the repository root, or the
RepoRootNotFoundError of paths.py carrying the resolved start directory. -/
inductive FindResult where
  | found : FsPath → FindResult
  | rootNotFound : FsPath → FindResult
deriving DecidableEq

/-- paths.py `find_repo_root`: scan the candidate sequence in order and
return the first candidate that directly contains the marker file; raise
RepoRootNotFoundError (carrying the resolved start directory) otherwise. -/
def find_repo_root (fs : FS) (startAbs : FsPath) : FindResult :=
  match (ancestorChain startAbs).find? (hasMarkerFile fs) with
  | some c => .found c
  | none => .rootNotFound startAbs

/-- The RepoRootNotFoundError message of paths.py lines 30-33. -/
def repoRootNotFoundMsg (startDir : FsPath) : String :=
  "Could not find an upward \x27pyproject.toml\x27 starting from: " ++
    pathToString startDir ++
    ". Ensure you\x27re running this inside a valid Python project directory."

/-- String containment, used for the "message contains the path" claims. -/
def containsStr (hay needle : String) : Prop :=
  ∃ pre post, hay = pre ++ needle ++ post

/-- Modelled from the spec: repo.py imports `UGIT_DIR` from
ugit_diy.constants, but constants.py in this snapshot does not define it;
the spec fixes the repository directory name as `.ugit`. -/
def UGIT_DIR : String := ".ugit"

/-- The HEAD file content written by repo.py line 79. -/
def headContent : String := "ref: refs/heads/main\n"

/-- The RepoAlreadyExistsError message of repo.py line 35. -/
def repoAlreadyExistsMsg (repoPath : FsPath) : String :=
  "Repository already exists at: " ++ pathToString repoPath

/-- Outcome of `init_repo`, carrying the filesystem state after the call:
success with the created repository path, a propagated
RepoRootNotFoundError, a RepoAlreadyExistsError carrying the offending
path, or an uncategorized filesystem error. -/
inductive InitResult where
  | ok : FsPath → FS → InitResult
  | rootNotFoundErr : FsPath → FS → InitResult
  | alreadyExistsErr : FsPath → FS → InitResult
  | ioErr : String → FS → InitResult
deriving DecidableEq

/-- repo.py `init_repo`: locate the project root (propagating the locator's
failure unchanged), fail with RepoAlreadyExistsError if `<root>/.ugit`
already exists, otherwise create objects/, refs/heads/, refs/tags/ and
write HEAD, returning the absolute repository path. -/
def init_repo (fs : FS) (startAbs : FsPath) : InitResult :=
  match find_repo_root fs startAbs with
  | .rootNotFound s => .rootNotFoundErr s fs
  | .found root =>
    let repoPath : FsPath := UGIT_DIR :: root
    if fs.pathExists repoPath then .alreadyExistsErr repoPath fs
    else
      match fs.mkdirP ("objects" :: repoPath) with
      | (fs1, some e) => .ioErr e fs1
      | (fs1, none) =>
        match fs1.mkdirP ("heads" :: "refs" :: repoPath) with
        | (fs2, some e) => .ioErr e fs2
        | (fs2, none) =>
          match fs2.mkdirP ("tags" :: "refs" :: repoPath) with
          | (fs3, some e) => .ioErr e fs3
          | (fs3, none) =>
            .ok repoPath (fs3.writeText ("HEAD" :: repoPath) headContent)

/-- The six paths a successful `init_repo` creates under the project root. -/
def createdPaths (root : FsPath) : List FsPath :=
  [UGIT_DIR :: root,
   "objects" :: UGIT_DIR :: root,
   "refs" :: UGIT_DIR :: root,
   "heads" :: "refs" :: UGIT_DIR :: root,
   "tags" :: "refs" :: UGIT_DIR :: root,
   "HEAD" :: UGIT_DIR :: root]

/-- The filesystem state produced by a successful `init_repo` locating
`root`: the six created entries, in the order the code writes them. -/
def afterInitFS (fs : FS) (root : FsPath) : FS :=
  (((((fs.setNode (UGIT_DIR :: root) .dir).setNode
      ("objects" :: UGIT_DIR :: root) .dir).setNode
      ("refs" :: UGIT_DIR :: root) .dir).setNode
      ("heads" :: "refs" :: UGIT_DIR :: root) .dir).setNode
      ("tags" :: "refs" :: UGIT_DIR :: root) .dir).setNode
      ("HEAD" :: UGIT_DIR :: root) (.file headContent)

/-- Python `Path.is_file()` as an explicit state transformer: the probe
returns its answer and the unchanged filesystem. -/
def FS.isFileProbe (fs : FS) (p : FsPath) : Bool × FS :=
  (fs.isFile p, fs)

/-- The candidate loop of paths.py lines 58-60 as a state transformer:
each iteration runs the `is_file` probe and threads the filesystem. -/
def findLoopSt (fs : FS) : List FsPath → Option FsPath × FS
  | [] => (none, fs)
  | c :: cs =>
    let r := fs.isFileProbe (markerName :: c)
    if r.1 then (some c, r.2) else findLoopSt r.2 cs

/-- paths.py `find_repo_root` as a state transformer over the filesystem,
built from the stateful probe loop. -/
def find_repo_root_st (fs : FS) (startAbs : FsPath) : FindResult × FS :=
  match findLoopSt fs (ancestorChain startAbs) with
  | (some c, fs1) => (.found c, fs1)
  | (none, fs1) => (.rootNotFound startAbs, fs1)

/-- Printed CLI output events: argparse help text, the version string, or
the usage message of an argparse parse error. -/
inductive OutEvent where
  | helpText : OutEvent
  | versionText : OutEvent
  | usageError : OutEvent
deriving DecidableEq

/-- The short option characters of the parser: h (help) and v (version). -/
def isShortFlagChar (c : Char) : Bool :=
  c == 'h' || c == 'v'

/-- The output printed by the zero-argument exit action bound to a short
option character. -/
def eventOfChar (c : Char) : OutEvent :=
  if c == 'h' then .helpText else .versionText

/-- What argparse does with one token of this parser: fire an exit-0
action printing its output, raise a parse error and exit 2, collect the
token as unrecognized, or treat it as the positional separator. -/
inductive TokenStep where
  | exit0 : OutEvent → TokenStep
  | err2 : TokenStep
  | extra : TokenStep
  | sep : TokenStep
deriving DecidableEq

/-- argparse short-option clustering: once a zero-argument action has
matched, every remaining glued character must itself be a known short
option; the first unknown one raises the parse error before any collected
action fires, and if all are known the first collected action fires and
exits 0 printing its own output. -/
def consumeCluster (ev : OutEvent) : List Char → TokenStep
  | [] => .exit0 ev
  | c :: rest => if isShortFlagChar c then consumeCluster ev rest else .err2

/-- Continue a single-dash token after its leading known short option:
nothing more fires the action; "=" with an empty explicit argument is the
ignored-explicit-argument parse error; "=" with a nonempty one, or
directly glued characters, continue as a cluster. -/
def classifyShortRest (ev : OutEvent) : List Char → TokenStep
  | [] => .exit0 ev
  | ['='] => .err2
  | '=' :: e :: es => consumeCluster ev (e :: es)
  | rest => consumeCluster ev rest

/-- A double-dash token other than the exact flags: "--help=..." and
"--version=..." match the known option with an explicit argument that its
zero-argument action must ignore, a parse error; everything else is
unrecognized, since allow_abbrev=False disables long-option
abbreviation. -/
def classifyLongRest (cs : List Char) : TokenStep :=
  if List.isPrefixOf "help=".toList cs || List.isPrefixOf "version=".toList cs then
    .err2
  else .extra

/-- Classify the characters of a token that is not an exact flag and not
the separator: a single dash followed by a known short option character
continues as a cluster; any other shape is an unrecognized token. -/
def classifyChars : List Char → TokenStep
  | '-' :: '-' :: rest => classifyLongRest rest
  | '-' :: c :: rest =>
    if isShortFlagChar c then classifyShortRest (eventOfChar c) rest else .extra
  | _ => .extra

/-- What `parse_args` does with a single token of cli.py's parser: the
exact flags of cli.py lines 60-72 fire their exit-0 actions, "--" is the
positional separator, and every other token follows argparse's
single-token matching, short-option clustering included. -/
def classifyToken (t : String) : TokenStep :=
  if t == "-h" || t == "--help" then .exit0 .helpText
  else if t == "-v" || t == "--version" then .exit0 .versionText
  else if t == "--" then .sep
  else classifyChars t.toList

/-- Outcome of `parser.parse_args`: a parsed (empty) namespace, or a
SystemExit with its exit code and the output printed before exiting. -/
inductive ParseOutcome where
  | ok : ParseOutcome
  | exited : Int → List OutEvent → ParseOutcome
deriving DecidableEq

/-- argparse `parse_args` on the parser of cli.py `_build_parser`: process
the tokens in order; a fired help or version action exits with code 0
after printing its output; an argument error exits with code 2 after
printing the usage error; from the "--" separator on, the separator and
everything after it are unrecognized (verified to make the parser exit 2
under this configuration); and leftover unrecognized tokens also make
`parser.error` exit with code 2. -/
def parseTokens : List String → List String → ParseOutcome
  | [], extras => if extras.isEmpty then .ok else .exited 2 [.usageError]
  | t :: rest, extras =>
    match classifyToken t with
    | .exit0 ev => .exited 0 [ev]
    | .err2 => .exited 2 [.usageError]
    | .sep => .exited 2 [.usageError]
    | .extra => parseTokens rest (extras ++ [t])

/-- `parse_args` on the full argument list (no extras collected yet). -/
def parse_args (argv : List String) : ParseOutcome :=
  parseTokens argv []

/-- cli.py `_dispatch`: no subcommands yet, always succeed with 0. -/
def dispatch (_ns : Unit) : Int :=
  0

/-- cli.py `main`: empty or missing argv prints help and returns 0; a
SystemExit raised by argparse is converted to its integer code; a
successful parse is routed to the no-op dispatch.  The result is the
returned exit code paired with what was printed. -/
def main (argv : Option (List String)) : Int × List OutEvent :=
  match argv with
  | none => (0, [.helpText])
  | some [] => (0, [.helpText])
  | some argv1 =>
    match parse_args argv1 with
    | .exited code out => (code, out)
    | .ok => (dispatch (), [])

/-- A sample filesystem: project root /proj with the marker file, a nested
/proj/src/pkg working directory, no repository yet. -/
def fsSample : FS :=
  ⟨[([], .dir), (["proj"], .dir), (["pyproject.toml", "proj"], .file "x"),
    (["src", "proj"], .dir), (["pkg", "src", "proj"], .dir)]⟩

/-- A sample filesystem with no marker anywhere: only /orphan exists. -/
def fsOrphan : FS :=
  ⟨[([], .dir), (["orphan"], .dir)]⟩

/-- A sample filesystem whose project root /proj already contains .ugit. -/
def fsWithRepo : FS :=
  ⟨[([], .dir), (["proj"], .dir), (["pyproject.toml", "proj"], .file "x"),
    ([".ugit", "proj"], .dir)]⟩

/-- A sample filesystem where /a/pyproject.toml is a directory while the
real marker file sits at the filesystem root. -/
def fsDirMarker : FS :=
  ⟨[([], .dir), (["pyproject.toml"], .file "x"), (["a"], .dir),
    (["pyproject.toml", "a"], .dir)]⟩

/-! Helper lemmas about the filesystem model. -/

theorem lookupNode_setNode (fs : FS) (p : FsPath) (n : Node) (q : FsPath) :
    (fs.setNode p n).lookupNode q = if p = q then some n else fs.lookupNode q := by
  by_cases h : p = q <;>
    simp [FS.setNode, FS.lookupNode, List.find?_cons, h]

theorem lookupNode_setNode_self (fs : FS) (p : FsPath) (n : Node) :
    (fs.setNode p n).lookupNode p = some n := by
  simp [lookupNode_setNode]

theorem lookupNode_setNode_ne (fs : FS) (p : FsPath) (n : Node) (q : FsPath)
    (h : p ≠ q) : (fs.setNode p n).lookupNode q = fs.lookupNode q := by
  simp [lookupNode_setNode, h]

theorem cons_ne_of_head_ne {a b : String} (p q : FsPath) (h : a ≠ b) :
    a :: p ≠ b :: q := by
  intro hc
  injection hc with h1 _
  exact h h1

theorem pathExists_setNode_iff (fs : FS) (p : FsPath) (n : Node) (q : FsPath) :
    (fs.setNode p n).pathExists q = true ↔ p = q ∨ fs.pathExists q = true := by
  by_cases h : p = q <;>
    simp [FS.pathExists, lookupNode_setNode, h]

theorem pathExists_setNode_mono (fs : FS) (p : FsPath) (n : Node) (q : FsPath)
    (h : fs.pathExists q = true) : (fs.setNode p n).pathExists q = true :=
  (pathExists_setNode_iff fs p n q).mpr (Or.inr h)

theorem pathExists_setNode_self (fs : FS) (p : FsPath) (n : Node) :
    (fs.setNode p n).pathExists p = true :=
  (pathExists_setNode_iff fs p n p).mpr (Or.inl rfl)

theorem pathExists_of_isDir (fs : FS) (p : FsPath) (h : fs.isDir p = true) :
    fs.pathExists p = true := by
  unfold FS.isDir at h
  unfold FS.pathExists
  cases hl : fs.lookupNode p with
  | none => rw [hl] at h; simp at h
  | some n => simp

theorem pathExists_of_isFile (fs : FS) (p : FsPath) (h : fs.isFile p = true) :
    fs.pathExists p = true := by
  unfold FS.isFile at h
  unfold FS.pathExists
  cases hl : fs.lookupNode p with
  | none => rw [hl] at h; simp at h
  | some n => simp

/-! Helper lemmas about ancestors: `properTails` lists the proper suffixes. -/

theorem mem_properTails {q p : FsPath} :
    q ∈ properTails p ↔ (q <:+ p ∧ q ≠ p) := by
  induction p with
  | nil => simp [properTails, List.suffix_nil]
  | cons a rest ih =>
    have hne : ∀ x : FsPath, x <:+ rest → x ≠ a :: rest := by
      intro x hs hc
      have := hs.length_le
      rw [hc] at this
      simp at this
    constructor
    · intro hq
      rcases List.mem_cons.mp hq with h | hq
      · rw [h]
        exact ⟨List.suffix_cons_iff.mpr (Or.inr List.suffix_rfl),
          hne rest List.suffix_rfl⟩
      · rcases ih.mp hq with ⟨hs, _⟩
        exact ⟨List.suffix_cons_iff.mpr (Or.inr hs), hne q hs⟩
    · rintro ⟨hs, hnp⟩
      rcases List.suffix_cons_iff.mp hs with h | hs
      · exact absurd h hnp
      · by_cases hq : q = rest
        · rw [hq]; exact List.mem_cons_self _ _
        · exact List.mem_cons_of_mem _ (ih.mpr ⟨hs, hq⟩)

theorem wfDirs_ancestor_isDir (fs : FS) (p q : FsPath)
    (hwf : fs.wfDirs = true) (hex : fs.pathExists p = true)
    (hq : q ∈ properTails p) : fs.isDir q = true := by
  unfold FS.pathExists FS.lookupNode at hex
  cases hfind : fs.entries.find? (fun e => e.1 == p) with
  | none => rw [hfind] at hex; simp at hex
  | some e =>
    have hmem : e ∈ fs.entries := List.mem_of_find?_eq_some hfind
    have hkey : e.1 = p := by
      have := List.find?_some hfind
      exact eq_of_beq this
    have hall := (List.all_eq_true.mp hwf) e hmem
    have := (List.all_eq_true.mp hall) q (hkey ▸ hq)
    exact this

theorem not_pathExists_below (fs : FS) (p q : FsPath)
    (hwf : fs.wfDirs = true) (hq : q ∈ properTails p)
    (hnq : fs.pathExists q = false) : fs.pathExists p = false := by
  cases hp : fs.pathExists p with
  | false => rfl
  | true =>
    have := pathExists_of_isDir fs q (wfDirs_ancestor_isDir fs p q hwf hp hq)
    rw [hnq] at this
    exact absurd this (by simp)

/-! Helper lemmas about the candidate chain and `find_repo_root`. -/

theorem mem_ancestorChain {c d : FsPath} : c ∈ ancestorChain d ↔ c <:+ d := by
  induction d with
  | nil => simp [ancestorChain, List.suffix_nil]
  | cons a rest ih => simp [ancestorChain, List.suffix_cons_iff, ih]

theorem find_repo_root_cons_marker (fs : FS) (a : String) (rest : FsPath)
    (h : hasMarkerFile fs (a :: rest) = true) :
    find_repo_root fs (a :: rest) = .found (a :: rest) := by
  unfold find_repo_root ancestorChain
  rw [List.find?_cons_of_pos _ h]

theorem ancestorChain_cons (a : String) (rest : FsPath) :
    ancestorChain (a :: rest) = (a :: rest) :: ancestorChain rest :=
  rfl

theorem findCandidate_step (fs : FS) (a : String) (rest : FsPath)
    (h : hasMarkerFile fs (a :: rest) = false) :
    (ancestorChain (a :: rest)).find? (hasMarkerFile fs) =
      (ancestorChain rest).find? (hasMarkerFile fs) := by
  rw [ancestorChain_cons, List.find?_cons_of_neg _ (by simp [h])]

theorem find_repo_root_found_iff (fs : FS) (d r : FsPath) :
    find_repo_root fs d = .found r ↔
      (ancestorChain d).find? (hasMarkerFile fs) = some r := by
  unfold find_repo_root
  cases hf : (ancestorChain d).find? (hasMarkerFile fs) <;> simp

theorem find_repo_root_step (fs : FS) (a : String) (rest r : FsPath)
    (h : hasMarkerFile fs (a :: rest) = false) :
    find_repo_root fs (a :: rest) = .found r ↔
      find_repo_root fs rest = .found r := by
  rw [find_repo_root_found_iff, find_repo_root_found_iff,
    findCandidate_step fs a rest h]

theorem find_repo_root_found_marker (fs : FS) (d root : FsPath)
    (h : find_repo_root fs d = .found root) : hasMarkerFile fs root = true := by
  unfold find_repo_root at h
  cases hfind : (ancestorChain d).find? (hasMarkerFile fs) with
  | none => rw [hfind] at h; exact absurd h (by simp)
  | some c =>
    rw [hfind] at h
    have hc : c = root := by injection h
    exact hc ▸ List.find?_some hfind

/-! Helper lemmas about directory creation. -/

theorem pathExists_setNode_ne (fs : FS) (p : FsPath) (n : Node) (q : FsPath)
    (h : p ≠ q) : (fs.setNode p n).pathExists q = fs.pathExists q := by
  unfold FS.pathExists
  rw [lookupNode_setNode_ne fs p n q h]

theorem mkdirIfMissing_of_present (fs : FS) (p : FsPath)
    (h : fs.pathExists p = true) : fs.mkdirIfMissing p = fs := by
  unfold FS.mkdirIfMissing
  simp [h]

theorem mkdirIfMissing_of_missing (fs : FS) (p : FsPath)
    (h : fs.pathExists p = false) : fs.mkdirIfMissing p = fs.setNode p .dir := by
  unfold FS.mkdirIfMissing
  simp [h]

theorem mkdirParents_cons (fs : FS) (a : String) (rest : FsPath) :
    fs.mkdirParents (a :: rest) = (fs.mkdirParents rest).mkdirIfMissing (a :: rest) :=
  rfl

theorem mkdirParents_eq_self (fs : FS) (p : FsPath)
    (h : ∀ q : FsPath, q <:+ p → q ≠ [] → fs.pathExists q = true) :
    fs.mkdirParents p = fs := by
  induction p with
  | nil => rfl
  | cons a rest ih =>
    rw [mkdirParents_cons,
      ih (fun q hq hne => h q (List.suffix_cons_iff.mpr (Or.inr hq)) hne)]
    exact mkdirIfMissing_of_present fs _ (h (a :: rest) List.suffix_rfl (by simp))

theorem mkdirP_step (fs fs1 : FS) (a : String) (rest : FsPath)
    (hpar : fs.mkdirParents rest = fs1)
    (hleaf : fs1.pathExists (a :: rest) = false) :
    fs.mkdirP (a :: rest) = (fs1.setNode (a :: rest) .dir, none) := by
  unfold FS.mkdirP
  simp only [hpar, hleaf]
  simp

/-- Central lemma: on a well-formed filesystem where the locator finds
`root` and `<root>/.ugit` does not yet exist, `init_repo` succeeds and the
resulting filesystem is exactly the input plus the six created entries. -/
theorem init_repo_success_eq (fs : FS) (d root : FsPath)
    (hwf : fs.wfDirs = true)
    (hfind : find_repo_root fs d = .found root)
    (hfresh : fs.pathExists (UGIT_DIR :: root) = false) :
    init_repo fs d = .ok (UGIT_DIR :: root) (afterInitFS fs root) := by
  have hmark : hasMarkerFile fs root = true :=
    find_repo_root_found_marker fs d root hfind
  have hmarkEx : fs.pathExists (markerName :: root) = true :=
    pathExists_of_isFile fs _ hmark
  have hanc : ∀ q : FsPath, q ∈ properTails (markerName :: root) → fs.isDir q = true :=
    fun q hq => wfDirs_ancestor_isDir fs _ q hwf hmarkEx hq
  have hrootEx : ∀ q : FsPath, q <:+ root → q ≠ [] → fs.pathExists q = true := by
    intro q hs hne
    by_cases hq : q = root
    · rw [hq]
      exact pathExists_of_isDir fs root (hanc root (by simp [properTails]))
    · exact pathExists_of_isDir fs q
        (hanc q (List.mem_cons_of_mem _ (mem_properTails.mpr ⟨hs, hq⟩)))
  -- the target paths do not exist yet in fs
  have m_op : fs.pathExists ("objects" :: UGIT_DIR :: root) = false :=
    not_pathExists_below fs _ (UGIT_DIR :: root) hwf (by simp [properTails]) hfresh
  have m_rf : fs.pathExists ("refs" :: UGIT_DIR :: root) = false :=
    not_pathExists_below fs _ (UGIT_DIR :: root) hwf (by simp [properTails]) hfresh
  have m_hp : fs.pathExists ("heads" :: "refs" :: UGIT_DIR :: root) = false :=
    not_pathExists_below fs _ (UGIT_DIR :: root) hwf (by simp [properTails]) hfresh
  have m_tp : fs.pathExists ("tags" :: "refs" :: UGIT_DIR :: root) = false :=
    not_pathExists_below fs _ (UGIT_DIR :: root) hwf (by simp [properTails]) hfresh
  -- path disequalities among the created entries
  have n_rp_op : UGIT_DIR :: root ≠ "objects" :: UGIT_DIR :: root :=
    (List.cons_ne_self _ _).symm
  have n_rp_rf : UGIT_DIR :: root ≠ "refs" :: UGIT_DIR :: root :=
    (List.cons_ne_self _ _).symm
  have n_op_rf : "objects" :: UGIT_DIR :: root ≠ "refs" :: UGIT_DIR :: root :=
    cons_ne_of_head_ne _ _ (by decide)
  have n_rp_hp : UGIT_DIR :: root ≠ "heads" :: "refs" :: UGIT_DIR :: root :=
    cons_ne_of_head_ne _ _ (by decide)
  have n_op_hp : "objects" :: UGIT_DIR :: root ≠ "heads" :: "refs" :: UGIT_DIR :: root :=
    cons_ne_of_head_ne _ _ (by decide)
  have n_rf_hp : "refs" :: UGIT_DIR :: root ≠ "heads" :: "refs" :: UGIT_DIR :: root :=
    (List.cons_ne_self _ _).symm
  have n_rp_tp : UGIT_DIR :: root ≠ "tags" :: "refs" :: UGIT_DIR :: root :=
    cons_ne_of_head_ne _ _ (by decide)
  have n_op_tp : "objects" :: UGIT_DIR :: root ≠ "tags" :: "refs" :: UGIT_DIR :: root :=
    cons_ne_of_head_ne _ _ (by decide)
  have n_rf_tp : "refs" :: UGIT_DIR :: root ≠ "tags" :: "refs" :: UGIT_DIR :: root :=
    (List.cons_ne_self _ _).symm
  have n_hp_tp : "heads" :: "refs" :: UGIT_DIR :: root ≠ "tags" :: "refs" :: UGIT_DIR :: root :=
    cons_ne_of_head_ne _ _ (by decide)
  -- step 1: mkdir objects/ creates .ugit then objects
  have hparA : fs.mkdirParents (UGIT_DIR :: root) = fs.setNode (UGIT_DIR :: root) .dir := by
    rw [mkdirParents_cons, mkdirParents_eq_self fs root hrootEx,
      mkdirIfMissing_of_missing fs _ hfresh]
  have hleafA : (fs.setNode (UGIT_DIR :: root) .dir).pathExists
      ("objects" :: UGIT_DIR :: root) = false := by
    rw [pathExists_setNode_ne _ _ _ _ n_rp_op]
    exact m_op
  have hstepA : fs.mkdirP ("objects" :: UGIT_DIR :: root) =
      ((fs.setNode (UGIT_DIR :: root) .dir).setNode
        ("objects" :: UGIT_DIR :: root) .dir, none) :=
    mkdirP_step fs _ "objects" (UGIT_DIR :: root) hparA hleafA
  -- the state after step 1
  have hyp1 : ∀ q : FsPath, q <:+ UGIT_DIR :: root → q ≠ [] →
      (((fs.setNode (UGIT_DIR :: root) .dir).setNode
        ("objects" :: UGIT_DIR :: root) .dir)).pathExists q = true := by
    intro q hq hne
    rcases List.suffix_cons_iff.mp hq with h | h
    · rw [h]
      exact pathExists_setNode_mono _ _ _ _ (pathExists_setNode_self fs _ _)
    · exact pathExists_setNode_mono _ _ _ _
        (pathExists_setNode_mono _ _ _ _ (hrootEx q h hne))
  -- step 2: mkdir refs/heads creates refs then heads
  have hparents1 : (((fs.setNode (UGIT_DIR :: root) .dir).setNode
      ("objects" :: UGIT_DIR :: root) .dir)).mkdirParents (UGIT_DIR :: root) =
      ((fs.setNode (UGIT_DIR :: root) .dir).setNode
        ("objects" :: UGIT_DIR :: root) .dir) :=
    mkdirParents_eq_self _ _ hyp1
  have hmissB : (((fs.setNode (UGIT_DIR :: root) .dir).setNode
      ("objects" :: UGIT_DIR :: root) .dir)).pathExists
      ("refs" :: UGIT_DIR :: root) = false := by
    rw [pathExists_setNode_ne _ _ _ _ n_op_rf, pathExists_setNode_ne _ _ _ _ n_rp_rf]
    exact m_rf
  have hparB : (((fs.setNode (UGIT_DIR :: root) .dir).setNode
      ("objects" :: UGIT_DIR :: root) .dir)).mkdirParents ("refs" :: UGIT_DIR :: root) =
      (((fs.setNode (UGIT_DIR :: root) .dir).setNode
        ("objects" :: UGIT_DIR :: root) .dir)).setNode ("refs" :: UGIT_DIR :: root) .dir := by
    rw [mkdirParents_cons, hparents1, mkdirIfMissing_of_missing _ _ hmissB]
  have hleafB : ((((fs.setNode (UGIT_DIR :: root) .dir).setNode
      ("objects" :: UGIT_DIR :: root) .dir)).setNode
      ("refs" :: UGIT_DIR :: root) .dir).pathExists
      ("heads" :: "refs" :: UGIT_DIR :: root) = false := by
    rw [pathExists_setNode_ne _ _ _ _ n_rf_hp, pathExists_setNode_ne _ _ _ _ n_op_hp,
      pathExists_setNode_ne _ _ _ _ n_rp_hp]
    exact m_hp
  have hstepB : (((fs.setNode (UGIT_DIR :: root) .dir).setNode
      ("objects" :: UGIT_DIR :: root) .dir)).mkdirP
      ("heads" :: "refs" :: UGIT_DIR :: root) =
      (((((fs.setNode (UGIT_DIR :: root) .dir).setNode
        ("objects" :: UGIT_DIR :: root) .dir)).setNode
        ("refs" :: UGIT_DIR :: root) .dir).setNode
        ("heads" :: "refs" :: UGIT_DIR :: root) .dir, none) :=
    mkdirP_step _ _ "heads" ("refs" :: UGIT_DIR :: root) hparB hleafB
  -- step 3: mkdir refs/tags reuses refs and creates tags
  have hyp2 : ∀ q : FsPath, q <:+ "refs" :: UGIT_DIR :: root → q ≠ [] →
      ((((((fs.setNode (UGIT_DIR :: root) .dir).setNode
        ("objects" :: UGIT_DIR :: root) .dir)).setNode
        ("refs" :: UGIT_DIR :: root) .dir).setNode
        ("heads" :: "refs" :: UGIT_DIR :: root) .dir)).pathExists q = true := by
    intro q hq hne
    rcases List.suffix_cons_iff.mp hq with h | h
    · rw [h]
      exact pathExists_setNode_mono _ _ _ _ (pathExists_setNode_self _ _ _)
    · rcases List.suffix_cons_iff.mp h with h2 | h2
      · rw [h2]
        exact pathExists_setNode_mono _ _ _ _ (pathExists_setNode_mono _ _ _ _
          (pathExists_setNode_mono _ _ _ _ (pathExists_setNode_self fs _ _)))
      · exact pathExists_setNode_mono _ _ _ _ (pathExists_setNode_mono _ _ _ _
          (pathExists_setNode_mono _ _ _ _ (pathExists_setNode_mono _ _ _ _
            (hrootEx q h2 hne))))
  have hparC : ((((((fs.setNode (UGIT_DIR :: root) .dir).setNode
      ("objects" :: UGIT_DIR :: root) .dir)).setNode
      ("refs" :: UGIT_DIR :: root) .dir).setNode
      ("heads" :: "refs" :: UGIT_DIR :: root) .dir)).mkdirParents
      ("refs" :: UGIT_DIR :: root) =
      (((((fs.setNode (UGIT_DIR :: root) .dir).setNode
        ("objects" :: UGIT_DIR :: root) .dir)).setNode
        ("refs" :: UGIT_DIR :: root) .dir).setNode
        ("heads" :: "refs" :: UGIT_DIR :: root) .dir) :=
    mkdirParents_eq_self _ _ hyp2
  have hleafC : ((((((fs.setNode (UGIT_DIR :: root) .dir).setNode
      ("objects" :: UGIT_DIR :: root) .dir)).setNode
      ("refs" :: UGIT_DIR :: root) .dir).setNode
      ("heads" :: "refs" :: UGIT_DIR :: root) .dir)).pathExists
      ("tags" :: "refs" :: UGIT_DIR :: root) = false := by
    rw [pathExists_setNode_ne _ _ _ _ n_hp_tp, pathExists_setNode_ne _ _ _ _ n_rf_tp,
      pathExists_setNode_ne _ _ _ _ n_op_tp, pathExists_setNode_ne _ _ _ _ n_rp_tp]
    exact m_tp
  have hstepC : ((((((fs.setNode (UGIT_DIR :: root) .dir).setNode
      ("objects" :: UGIT_DIR :: root) .dir)).setNode
      ("refs" :: UGIT_DIR :: root) .dir).setNode
      ("heads" :: "refs" :: UGIT_DIR :: root) .dir)).mkdirP
      ("tags" :: "refs" :: UGIT_DIR :: root) =
      ((((((fs.setNode (UGIT_DIR :: root) .dir).setNode
        ("objects" :: UGIT_DIR :: root) .dir)).setNode
        ("refs" :: UGIT_DIR :: root) .dir).setNode
        ("heads" :: "refs" :: UGIT_DIR :: root) .dir).setNode
        ("tags" :: "refs" :: UGIT_DIR :: root) .dir, none) :=
    mkdirP_step _ _ "tags" ("refs" :: UGIT_DIR :: root) hparC hleafC
  -- assemble the linear procedure
  unfold init_repo
  rw [hfind]
  simp only [hfresh, Bool.false_eq_true, if_false, hstepA, hstepB, hstepC]
  rfl

theorem init_repo_exists_eq (fs : FS) (d root : FsPath)
    (hfind : find_repo_root fs d = .found root)
    (hex : fs.pathExists (UGIT_DIR :: root) = true) :
    init_repo fs d = .alreadyExistsErr (UGIT_DIR :: root) fs := by
  unfold init_repo
  rw [hfind]
  simp [hex]

theorem lookupNode_afterInitFS_marker (fs : FS) (root c : FsPath) :
    (afterInitFS fs root).lookupNode (markerName :: c) =
      fs.lookupNode (markerName :: c) := by
  unfold afterInitFS
  rw [lookupNode_setNode_ne _ _ _ _ (cons_ne_of_head_ne _ _ (by decide)),
    lookupNode_setNode_ne _ _ _ _ (cons_ne_of_head_ne _ _ (by decide)),
    lookupNode_setNode_ne _ _ _ _ (cons_ne_of_head_ne _ _ (by decide)),
    lookupNode_setNode_ne _ _ _ _ (cons_ne_of_head_ne _ _ (by decide)),
    lookupNode_setNode_ne _ _ _ _ (cons_ne_of_head_ne _ _ (by decide)),
    lookupNode_setNode_ne _ _ _ _ (cons_ne_of_head_ne _ _ (by decide))]

theorem hasMarkerFile_afterInitFS (fs : FS) (root c : FsPath) :
    hasMarkerFile (afterInitFS fs root) c = hasMarkerFile fs c := by
  unfold hasMarkerFile FS.isFile
  rw [lookupNode_afterInitFS_marker]

theorem find_repo_root_congr (fs fs2 : FS) (d : FsPath)
    (h : ∀ c : FsPath, hasMarkerFile fs2 c = hasMarkerFile fs c) :
    find_repo_root fs2 d = find_repo_root fs d := by
  unfold find_repo_root
  rw [show hasMarkerFile fs2 = hasMarkerFile fs from funext h]

theorem pathExists_afterInitFS_repo (fs : FS) (root : FsPath) :
    (afterInitFS fs root).pathExists (UGIT_DIR :: root) = true := by
  unfold afterInitFS
  exact pathExists_setNode_mono _ _ _ _ (pathExists_setNode_mono _ _ _ _
    (pathExists_setNode_mono _ _ _ _ (pathExists_setNode_mono _ _ _ _
      (pathExists_setNode_mono _ _ _ _ (pathExists_setNode_self fs _ _)))))

theorem lookupNode_afterInitFS_head (fs : FS) (root : FsPath) :
    (afterInitFS fs root).lookupNode ("HEAD" :: UGIT_DIR :: root) =
      some (.file headContent) :=
  lookupNode_setNode_self _ _ _

/-! Helper lemmas for the stateful locator and the CLI model. -/

theorem findLoopSt_spec (fs : FS) (l : List FsPath) :
    findLoopSt fs l = (l.find? (hasMarkerFile fs), fs) := by
  induction l with
  | nil => rfl
  | cons c cs ih =>
    show (if fs.isFile (markerName :: c) = true then (some c, fs)
      else findLoopSt fs cs) = _
    rw [List.find?_cons]
    simp only [hasMarkerFile]
    cases h : fs.isFile (markerName :: c) with
    | false => simpa [h] using ih
    | true => simp [h]

theorem parseTokens_all_extras (argv : List String) :
    ∀ extras : List String,
      (∀ t ∈ argv, classifyToken t = .extra) →
      extras ++ argv ≠ [] →
      parseTokens argv extras = .exited 2 [.usageError] := by
  induction argv with
  | nil =>
    intro extras _ hne
    cases extras with
    | nil => simp at hne
    | cons e es => rfl
  | cons t rest ih =>
    intro extras h hne
    have h1 := h t (List.mem_cons_self _ _)
    show (match classifyToken t with
      | .exit0 ev => ParseOutcome.exited 0 [ev]
      | .err2 => ParseOutcome.exited 2 [.usageError]
      | .sep => ParseOutcome.exited 2 [.usageError]
      | .extra => parseTokens rest (extras ++ [t])) = _
    rw [h1]
    exact ih (extras ++ [t]) (fun x hx => h x (List.mem_cons_of_mem _ hx)) (by simp)

/-! The claims. -/

/-- C1: for every start directory whose ancestor chain contains the marker
file, a successful `initialize(start_dir)` creates under the located
project root exactly the repository layout `root/.ugit/objects` (dir),
`root/.ugit/refs/heads` (dir), `root/.ugit/refs/tags` (dir) and
`root/.ugit/HEAD` (file whose content is exactly the single line
"ref: refs/heads/main\n"), and returns the absolute path `root/.ugit`. -/
theorem init_repo_creates_exact_layout (fs : FS) (d root : FsPath)
    (hwf : fs.wfDirs = true)
    (hfind : find_repo_root fs d = .found root)
    (hfresh : fs.pathExists (UGIT_DIR :: root) = false) :
    ∃ fs2 : FS,
      init_repo fs d = .ok (UGIT_DIR :: root) fs2 ∧
      fs2.isDir (UGIT_DIR :: root) = true ∧
      fs2.isDir ("objects" :: UGIT_DIR :: root) = true ∧
      fs2.isDir ("refs" :: UGIT_DIR :: root) = true ∧
      fs2.isDir ("heads" :: "refs" :: UGIT_DIR :: root) = true ∧
      fs2.isDir ("tags" :: "refs" :: UGIT_DIR :: root) = true ∧
      fs2.lookupNode ("HEAD" :: UGIT_DIR :: root) =
        some (.file "ref: refs/heads/main\n") ∧
      (∀ p : FsPath, fs2.pathExists p = true →
        fs.pathExists p = true ∨ p ∈ createdPaths root) := by
  refine ⟨afterInitFS fs root,
    init_repo_success_eq fs d root hwf hfind hfresh, ?_, ?_, ?_, ?_, ?_, ?_, ?_⟩
  · simp [afterInitFS, FS.isDir, lookupNode_setNode, UGIT_DIR]
  · simp [afterInitFS, FS.isDir, lookupNode_setNode, UGIT_DIR]
  · simp [afterInitFS, FS.isDir, lookupNode_setNode, UGIT_DIR]
  · simp [afterInitFS, FS.isDir, lookupNode_setNode, UGIT_DIR]
  · simp [afterInitFS, FS.isDir, lookupNode_setNode, UGIT_DIR]
  · exact lookupNode_afterInitFS_head fs root
  · intro p hp
    unfold afterInitFS at hp
    rcases (pathExists_setNode_iff _ _ _ _).mp hp with h | hp
    · exact Or.inr (by rw [← h]; simp [createdPaths])
    rcases (pathExists_setNode_iff _ _ _ _).mp hp with h | hp
    · exact Or.inr (by rw [← h]; simp [createdPaths])
    rcases (pathExists_setNode_iff _ _ _ _).mp hp with h | hp
    · exact Or.inr (by rw [← h]; simp [createdPaths])
    rcases (pathExists_setNode_iff _ _ _ _).mp hp with h | hp
    · exact Or.inr (by rw [← h]; simp [createdPaths])
    rcases (pathExists_setNode_iff _ _ _ _).mp hp with h | hp
    · exact Or.inr (by rw [← h]; simp [createdPaths])
    rcases (pathExists_setNode_iff _ _ _ _).mp hp with h | hp
    · exact Or.inr (by rw [← h]; simp [createdPaths])
    · exact Or.inl hp

theorem init_repo_creates_exact_layout_witness :
    ∃ fs2 : FS,
      init_repo fsSample ["pkg", "src", "proj"] = .ok (UGIT_DIR :: ["proj"]) fs2 ∧
      fs2.isDir (UGIT_DIR :: ["proj"]) = true ∧
      fs2.isDir ("objects" :: UGIT_DIR :: ["proj"]) = true ∧
      fs2.isDir ("refs" :: UGIT_DIR :: ["proj"]) = true ∧
      fs2.isDir ("heads" :: "refs" :: UGIT_DIR :: ["proj"]) = true ∧
      fs2.isDir ("tags" :: "refs" :: UGIT_DIR :: ["proj"]) = true ∧
      fs2.lookupNode ("HEAD" :: UGIT_DIR :: ["proj"]) =
        some (.file "ref: refs/heads/main\n") ∧
      (∀ p : FsPath, fs2.pathExists p = true →
        fsSample.pathExists p = true ∨ p ∈ createdPaths ["proj"]) :=
  init_repo_creates_exact_layout fsSample ["pkg", "src", "proj"] ["proj"]
    (by decide) (by decide) (by decide)

/-- C2: for every start directory `d` such that `d` or an ancestor of `d`
directly contains the marker file, the locator returns the first candidate
of the sequence `[d, parent d, parent (parent d), ...]` that directly
contains the marker file, i.e. the nearest such directory, independent of
how deep `d` lies below it. -/
theorem find_repo_root_returns_nearest_marker (fs : FS) (d c : FsPath)
    (hc : c <:+ d) (hm : hasMarkerFile fs c = true) :
    ∃ r : FsPath, find_repo_root fs d = .found r ∧
      hasMarkerFile fs r = true ∧ r <:+ d ∧
      ∀ x : FsPath, x <:+ d → hasMarkerFile fs x = true → x <:+ r := by
  revert c
  induction d with
  | nil =>
    intro c hc hm
    have hc0 : c = [] := List.suffix_nil.mp hc
    rw [hc0] at hm
    refine ⟨[], ?_, hm, List.suffix_rfl, fun x hx _ => hx⟩
    unfold find_repo_root ancestorChain
    rw [List.find?_cons_of_pos _ hm]
  | cons a rest ih =>
    intro c hc hm
    by_cases hd : hasMarkerFile fs (a :: rest) = true
    · exact ⟨a :: rest, find_repo_root_cons_marker fs a rest hd, hd,
        List.suffix_rfl, fun x hx _ => hx⟩
    · have hdf : hasMarkerFile fs (a :: rest) = false := by
        cases h2 : hasMarkerFile fs (a :: rest)
        · rfl
        · exact absurd h2 hd
      have hcne : c ≠ a :: rest := fun h => hd (h ▸ hm)
      have hcr : c <:+ rest := by
        rcases List.suffix_cons_iff.mp hc with h | h
        · exact absurd h hcne
        · exact h
      obtain ⟨r, hfr, hmr, hrs, hmax⟩ := ih c hcr hm
      refine ⟨r, (find_repo_root_step fs a rest r hdf).mpr hfr, hmr,
        List.suffix_cons_iff.mpr (Or.inr hrs), ?_⟩
      intro x hx hmx
      have hxne : x ≠ a :: rest := fun h => hd (h ▸ hmx)
      have hxr : x <:+ rest := by
        rcases List.suffix_cons_iff.mp hx with h | h
        · exact absurd h hxne
        · exact h
      exact hmax x hxr hmx

theorem find_repo_root_returns_nearest_marker_witness :
    ∃ r : FsPath, find_repo_root fsSample ["pkg", "src", "proj"] = .found r ∧
      hasMarkerFile fsSample r = true ∧ r <:+ ["pkg", "src", "proj"] ∧
      ∀ x : FsPath, x <:+ ["pkg", "src", "proj"] →
        hasMarkerFile fsSample x = true → x <:+ r :=
  find_repo_root_returns_nearest_marker fsSample ["pkg", "src", "proj"] ["proj"]
    (by decide) (by decide)

/-- C3: for every project root whose repository path `<root>/.ugit` already
exists (file or directory), `initialize` fails with AlreadyExists carrying
that offending path (also embedded in its message), and the filesystem is
unchanged by the failed call. -/
theorem init_repo_fails_when_repo_exists (fs : FS) (d root : FsPath)
    (hfind : find_repo_root fs d = .found root)
    (hex : fs.pathExists (UGIT_DIR :: root) = true) :
    init_repo fs d = .alreadyExistsErr (UGIT_DIR :: root) fs ∧
      containsStr (repoAlreadyExistsMsg (UGIT_DIR :: root))
        (pathToString (UGIT_DIR :: root)) := by
  refine ⟨init_repo_exists_eq fs d root hfind hex,
    ⟨"Repository already exists at: ", "", ?_⟩⟩
  rw [String.append_empty]
  rfl

theorem init_repo_fails_when_repo_exists_witness :
    init_repo fsWithRepo ["proj"] = .alreadyExistsErr (UGIT_DIR :: ["proj"]) fsWithRepo ∧
      containsStr (repoAlreadyExistsMsg (UGIT_DIR :: ["proj"]))
        (pathToString (UGIT_DIR :: ["proj"])) :=
  init_repo_fails_when_repo_exists fsWithRepo ["proj"] ["proj"]
    (by decide) (by decide)

/-- C4: calling `initialize` twice against the same root yields success
then AlreadyExists, and the second call leaves the filesystem of the first
call untouched, so the content of `<root>/.ugit/HEAD` after the second
call equals its content after the first call. -/
theorem init_repo_twice_preserves_head (fs : FS) (d root : FsPath)
    (hwf : fs.wfDirs = true)
    (hfind : find_repo_root fs d = .found root)
    (hfresh : fs.pathExists (UGIT_DIR :: root) = false) :
    ∃ fs2 : FS,
      init_repo fs d = .ok (UGIT_DIR :: root) fs2 ∧
      fs2.lookupNode ("HEAD" :: UGIT_DIR :: root) = some (.file headContent) ∧
      init_repo fs2 d = .alreadyExistsErr (UGIT_DIR :: root) fs2 := by
  refine ⟨afterInitFS fs root, init_repo_success_eq fs d root hwf hfind hfresh,
    lookupNode_afterInitFS_head fs root, ?_⟩
  have hfind2 : find_repo_root (afterInitFS fs root) d = .found root := by
    rw [find_repo_root_congr fs (afterInitFS fs root) d
      (fun c => hasMarkerFile_afterInitFS fs root c)]
    exact hfind
  exact init_repo_exists_eq (afterInitFS fs root) d root hfind2
    (pathExists_afterInitFS_repo fs root)

theorem init_repo_twice_preserves_head_witness :
    ∃ fs2 : FS,
      init_repo fsSample ["src", "proj"] = .ok (UGIT_DIR :: ["proj"]) fs2 ∧
      fs2.lookupNode ("HEAD" :: UGIT_DIR :: ["proj"]) = some (.file headContent) ∧
      init_repo fs2 ["src", "proj"] = .alreadyExistsErr (UGIT_DIR :: ["proj"]) fs2 :=
  init_repo_twice_preserves_head fsSample ["src", "proj"] ["proj"]
    (by decide) (by decide) (by decide)

/-- C5: for every start directory whose resolved form and ancestors (up to
and including the filesystem root) never contain the marker file, the
locator fails with RootNotFound, and the error message contains the
resolved absolute form of the start directory. -/
theorem find_repo_root_not_found_message (fs : FS) (d : FsPath)
    (h : ∀ c ∈ ancestorChain d, hasMarkerFile fs c = false) :
    find_repo_root fs d = .rootNotFound d ∧
      containsStr (repoRootNotFoundMsg d) (pathToString d) := by
  constructor
  · unfold find_repo_root
    rw [List.find?_eq_none.mpr (fun x hx => by rw [h x hx]; simp)]
  · exact ⟨"Could not find an upward \x27pyproject.toml\x27 starting from: ",
      ". Ensure you\x27re running this inside a valid Python project directory.",
      rfl⟩

theorem find_repo_root_not_found_message_witness :
    find_repo_root fsOrphan ["orphan"] = .rootNotFound ["orphan"] ∧
      containsStr (repoRootNotFoundMsg ["orphan"]) (pathToString ["orphan"]) :=
  find_repo_root_not_found_message fsOrphan ["orphan"] (by decide)

/-- C6: whenever the locator fails, `initialize` propagates that
RootNotFound failure unchanged, carrying the same start directory, and
returns the filesystem exactly as it received it. -/
theorem init_repo_propagates_root_not_found (fs : FS) (d s : FsPath)
    (h : find_repo_root fs d = .rootNotFound s) :
    init_repo fs d = .rootNotFoundErr s fs := by
  unfold init_repo
  rw [h]

theorem init_repo_propagates_root_not_found_witness :
    init_repo fsOrphan ["orphan"] = .rootNotFoundErr ["orphan"] fsOrphan :=
  init_repo_propagates_root_not_found fsOrphan ["orphan"] ["orphan"] (by decide)

/-- C7: the locator has no side effects: run as a state transformer whose
only filesystem interaction is the read-only `is_file` probe, every call,
successful or failing, returns the filesystem unchanged, and its answer
agrees with the pure locator. -/
theorem find_repo_root_st_no_side_effects (fs : FS) (d : FsPath) :
    (find_repo_root_st fs d).2 = fs ∧
      (find_repo_root_st fs d).1 = find_repo_root fs d := by
  unfold find_repo_root_st
  rw [findLoopSt_spec]
  unfold find_repo_root
  cases h : (ancestorChain d).find? (hasMarkerFile fs) <;> simp

/-- C8: invoking the CLI entry point with zero arguments prints the help
text and returns exit code 0, and every argument list that parses
successfully is routed to the no-op dispatch, which returns exit code 0. -/
theorem main_no_args_help_and_parse_ok_zero :
    main none = (0, [.helpText]) ∧ main (some []) = (0, [.helpText]) ∧
      ∀ argv : List String, parse_args argv = .ok → (main (some argv)).1 = 0 := by
  refine ⟨rfl, rfl, ?_⟩
  intro argv h
  cases argv with
  | nil => rfl
  | cons t rest =>
    have hm : main (some (t :: rest)) = (dispatch (), ([] : List OutEvent)) := by
      show (match parse_args (t :: rest) with
        | ParseOutcome.exited code out => (code, out)
        | ParseOutcome.ok => (dispatch (), ([] : List OutEvent))) =
        (dispatch (), ([] : List OutEvent))
      rw [h]
    rw [hm]
    rfl

theorem main_no_args_help_and_parse_ok_zero_witness :
    (main (some [])).1 = 0 :=
  main_no_args_help_and_parse_ok_zero.2.2 [] (by decide)

/-- C9: the CLI entry point never propagates argparse's SystemExit: it
converts it to an integer return value, so an argument list made only of
unrecognized tokens yields argparse's parse-error code 2 (printing the
usage error, not exiting and not returning 0 or 1), while the help and
version flags yield 0; clustered short options such as "-hv" and "-vh"
explode into their single-character flags, so the first action fires and
they also yield 0. -/
theorem main_converts_systemexit_codes :
    (∀ argv : List String, argv ≠ [] →
      (∀ t ∈ argv, classifyToken t = .extra) →
      main (some argv) = (2, [.usageError])) ∧
    main (some ["-h"]) = (0, [.helpText]) ∧
    main (some ["--help"]) = (0, [.helpText]) ∧
    main (some ["-v"]) = (0, [.versionText]) ∧
    main (some ["--version"]) = (0, [.versionText]) ∧
    main (some ["-hv"]) = (0, [.helpText]) ∧
    main (some ["-vh"]) = (0, [.versionText]) := by
  refine ⟨?_, by decide, by decide, by decide, by decide, by decide, by decide⟩
  intro argv hne hflags
  cases argv with
  | nil => exact absurd rfl hne
  | cons t rest =>
    show (match parse_args (t :: rest) with
      | ParseOutcome.exited code out => (code, out)
      | ParseOutcome.ok => (dispatch (), ([] : List OutEvent))) =
      (2, [.usageError])
    rw [show parse_args (t :: rest) = ParseOutcome.exited 2 [.usageError] from
      parseTokens_all_extras (t :: rest) [] hflags (by simp)]

theorem main_converts_systemexit_codes_witness :
    main (some ["--bogus"]) = (2, [.usageError]) :=
  main_converts_systemexit_codes.1 ["--bogus"] (by decide) (by decide)

/-- C10: the marker test requires a regular file: whenever the locator
returns a root, the marker path there is a regular file, and a directory
named pyproject.toml in a candidate does not stop the upward search, which
continues at the candidate's parent. -/
theorem marker_requires_regular_file :
    (∀ (fs : FS) (d c : FsPath), find_repo_root fs d = .found c →
      ∃ content : String,
        fs.lookupNode (markerName :: c) = some (.file content)) ∧
    (∀ (fs : FS) (a : String) (rest r : FsPath),
      fs.lookupNode (markerName :: a :: rest) = some .dir →
      (find_repo_root fs (a :: rest) = .found r ↔
        find_repo_root fs rest = .found r)) := by
  constructor
  · intro fs d c h
    have hm := find_repo_root_found_marker fs d c h
    unfold hasMarkerFile FS.isFile at hm
    cases hl : fs.lookupNode (markerName :: c) with
    | none => rw [hl] at hm; simp at hm
    | some n =>
      cases n with
      | dir => rw [hl] at hm; simp at hm
      | file content => exact ⟨content, rfl⟩
  · intro fs a rest r hdir
    apply find_repo_root_step
    unfold hasMarkerFile FS.isFile
    rw [hdir]

theorem marker_requires_regular_file_witness :
    (∃ content : String,
      fsDirMarker.lookupNode (markerName :: ([] : FsPath)) =
        some (.file content)) ∧
    (find_repo_root fsDirMarker ["a"] = .found [] ↔
      find_repo_root fsDirMarker [] = .found []) :=
  ⟨marker_requires_regular_file.1 fsDirMarker ["a"] [] (by decide),
   marker_requires_regular_file.2 fsDirMarker "a" [] [] (by decide)⟩

end Ugit
